import Mathlib

/-!
Shallow embedding of the genetic_risk repository (src/GWAS.hxx and
src/gen_risk_lib/GWAS.hxx) and proofs about its specification claims.

Modelling conventions:
* C++ `std::vector` becomes `List`; `std::set` becomes a sorted,
  duplicate-free `List` (its canonical iteration order).
* Machine `unsigned long` is 64 bits: values are `Nat` reduced modulo `2^64`
  where wraparound matters (the `a_pos = -1` assignment, `std::stoul` of a
  negative literal).
* A parsed `double` is modelled exactly by the decimal structure `Dbl`
  (sign, mantissa digits, decimal scale, exponent), interpreted into `ℚ` by
  `Dbl.toRat`. The claims under study depend only on parse success, the
  sign test and the emitted values of short decimal literals, never on IEEE
  rounding, so exact decimals are an adequate model of `std::stod`.
* C++ exceptions escaping a function are modelled with `Except`: an
  uncaught `std::invalid_argument` / `std::out_of_range` becomes an
  `Except.error`.
* `std::vector::operator[]` out-of-range access is undefined behaviour and a
  programmer error per the spec; the model totalises it with `List.getD`
  (default `""` / `[]`), which is only exercised on well-shaped tables here.
-/

namespace GenRisk

/-! ## Model of the C numeric parsers (`std::stoul`, `std::stod`) -/

/-- Whitespace characters skipped by `strtoul`/`strtod` (C `isspace`). -/
def cIsSpace (c : Char) : Bool :=
  c = ' ' || c = '\t' || c = '\n' || c = '\x0b' || c = '\x0c' || c = '\r'

/-- Value of a base-10 digit string (most significant first). -/
def digitsToNat (ds : List Char) : Nat :=
  ds.foldl (fun a c => a * 10 + (c.toNat - 48)) 0

/-- `ULONG_MAX` on the 64-bit platforms this code targets. -/
def ULONGMAX : Nat := 2 ^ 64 - 1

/-- Outcome of `std::stoul`: a converted value, or one of the two exception
types it can throw. -/
inductive StoulResult where
  | ok (v : Nat)
  | invalidArg
  | outOfRange
deriving DecidableEq, Repr

/-- Model of `std::stoul(s)` (base 10): skip leading whitespace, optional
sign, then the longest digit prefix. No digits at all throws
`std::invalid_argument`; a magnitude above `ULONG_MAX` throws
`std::out_of_range`; a minus sign negates in unsigned arithmetic
(wraparound modulo `2^64`), as `strtoul` specifies. Trailing non-digit
characters are ignored. -/
def stoul (s : String) : StoulResult :=
  let cs := s.data.dropWhile cIsSpace
  let signed : Bool × List Char :=
    match cs with
    | '-' :: r => (true, r)
    | '+' :: r => (false, r)
    | _ => (false, cs)
  let ds := signed.2.takeWhile Char.isDigit
  if ds.isEmpty then .invalidArg
  else
    let v := digitsToNat ds
    if v > ULONGMAX then .outOfRange
    else .ok (if signed.1 then (2 ^ 64 - v) % 2 ^ 64 else v)

/-- The exact value of a decimal literal as parsed by `std::stod`:
`(-1)^neg * num / 10^scale * 10^exp`. Keeping the parsed digits instead of a
normalised rational keeps every downstream computation kernel-evaluable;
`Dbl.toRat` gives the denoted number. (IEEE rounding is outside the model:
no claim under study depends on it.) -/
structure Dbl where
  neg : Bool
  num : Nat
  scale : Nat
  exp : ℤ
deriving DecidableEq, Repr

/-- The rational number a `Dbl` denotes. -/
def Dbl.toRat (d : Dbl) : ℚ :=
  (if d.neg then -1 else 1) * (d.num : ℚ) / (10 : ℚ) ^ d.scale * (10 : ℚ) ^ d.exp

/-- The Boolean form of the C++ comparison `value > 0` on a parsed double:
positive iff not negated and the mantissa is nonzero (`Dbl.posB_iff`). -/
def Dbl.posB (d : Dbl) : Bool :=
  !d.neg && d.num != 0

/-- The double assigned by the `catch` handler of `effect_size_mask`:
`effect_size = -1`. -/
def negOne : Dbl := ⟨true, 1, 0, 0⟩

/-- Model of `std::stod(s)` on decimal literals: skip leading whitespace,
optional sign, digits with an optional fractional part, optional exponent.
`none` models the `std::invalid_argument` thrown when no numeric prefix
exists; trailing garbage is ignored. The `std::out_of_range`
overflow/underflow path is outside this model (no claim under study depends
on it). -/
def stod (s : String) : Option Dbl :=
  let cs := s.data.dropWhile cIsSpace
  let signed : Bool × List Char :=
    match cs with
    | '-' :: r => (true, r)
    | '+' :: r => (false, r)
    | _ => (false, cs)
  let ip := signed.2.takeWhile Char.isDigit
  let rest1 := signed.2.dropWhile Char.isDigit
  let fracAndRest : List Char × List Char :=
    match rest1 with
    | '.' :: r => (r.takeWhile Char.isDigit, r.dropWhile Char.isDigit)
    | _ => ([], rest1)
  if ip.isEmpty ∧ fracAndRest.1.isEmpty then none
  else
    let e : ℤ :=
      match fracAndRest.2 with
      | c :: r =>
        if c = 'e' ∨ c = 'E' then
          let esigned : Bool × List Char :=
            match r with
            | '-' :: rr => (true, rr)
            | '+' :: rr => (false, rr)
            | _ => (false, r)
          let ed := esigned.2.takeWhile Char.isDigit
          if ed.isEmpty then 0
          else if esigned.1 then -(digitsToNat ed : ℤ) else (digitsToNat ed : ℤ)
        else 0
      | [] => 0
    some ⟨signed.1, digitsToNat (ip ++ fracAndRest.1), fracAndRest.1.length, e⟩

/-! ## Errors -/

/-- Exceptions that can escape the GWAS operations in the model:
`unknownColumn` is the `std::out_of_range` thrown by
`unordered_map::at` on a missing column name; `invalidArg` / `outOfRange`
are the `std::stoul`/`std::stod` exceptions escaping uncaught. -/
inductive GwasError where
  | unknownColumn
  | invalidArg
  | outOfRange
deriving DecidableEq, Repr

/-- Failure of `load`: `get_lines` asserts that the source yielded at least
one line (`assert(!lines.empty())`). -/
inductive LoadError where
  | malformedInput
deriving DecidableEq, Repr

/-- Decidable equality for `Except` results, so that concrete runs of the
model can be checked by `decide`. -/
instance {ε α : Type} [DecidableEq ε] [DecidableEq α] : DecidableEq (Except ε α) :=
  fun a b =>
    match a, b with
    | .ok x, .ok y =>
      if h : x = y then .isTrue (by rw [h]) else .isFalse (by intro hc; cases hc; exact h rfl)
    | .error x, .error y =>
      if h : x = y then .isTrue (by rw [h]) else .isFalse (by intro hc; cases hc; exact h rfl)
    | .ok _, .error _ => .isFalse (by intro hc; cases hc)
    | .error _, .ok _ => .isFalse (by intro hc; cases hc)

/-! ## Tokenization and the tabular store (class `GWAS` of src/GWAS.hxx) -/

/-- Model of `getTokens`: repeated `std::getline(iss, token, '\t')`.
This is tab-splitting, except that an empty line yields no token and a
trailing tab does not yield a final empty token (after the last delimiter is
consumed the stream is at end-of-file and `getline` fails). -/
def getTokens (line : String) : List String :=
  if line = "" then []
  else if line.endsWith "\t" then (line.splitOn "\t").dropLast
  else line.splitOn "\t"

/-- The table owned by a `GWAS` object: header row and data rows, each a list
of string cells. (`index_of` is derived from `header`, see `indexOf`.) -/
structure GWAS where
  header : List String
  data : List (List String)
deriving DecidableEq, Repr

/-- Model of `initHeaderIndexMap` followed by `index_of.at(name)`: the map is
filled by iterating the header left to right (`index_of[header[i]] = i`), so
a duplicated name keeps its last occurrence's index; `.at` on an absent name
throws (`none` here). -/
def indexOf (header : List String) (name : String) : Option Nat :=
  header.enum.foldl (fun acc p => if p.2 = name then some p.1 else acc) none

/-- Model of the file constructor `GWAS(const std::string&)` composed with
`get_lines`: the source is abstracted as the list of lines it yields.
`get_lines` asserts the list is nonempty (`MalformedInput` otherwise); the
first line becomes the header and every further line a data row. -/
def loadGWAS (src : List String) : Except LoadError GWAS :=
  match src with
  | [] => .error .malformedInput
  | first :: rest => .ok ⟨getTokens first, rest.map getTokens⟩

/-- Model of the in-memory constructor `GWAS(strings, vector<gwas_entry>)`:
it moves the two fields and builds the header index map, and nothing else —
in particular it resolves none of the well-known column names (that lookup
happens lazily inside each operation), so it cannot fail. The `Except`
return type exposes the (absent) failure channel for specification
comparison. -/
def constructGWAS (h : List String) (d : List (List String)) : Except GwasError GWAS :=
  .ok ⟨h, d⟩

/-! ## Validity masks (`positions_mask`, `effect_size_mask`) -/

/-- The per-row position value of `positions_mask`: `a_pos = stoul(cell)`;
on `std::invalid_argument` the handler assigns `a_pos = -1`, which wraps to
`ULONG_MAX` in the `unsigned long` variable; `std::out_of_range` is not
caught and escapes. -/
def posVal (cell : String) : Except GwasError Nat :=
  match stoul cell with
  | .ok v => .ok v
  | .invalidArg => .ok ULONGMAX
  | .outOfRange => .error .outOfRange

/-- The per-row effect-size value of `effect_size_mask`:
`effect_size = stod(cell)`; on `std::invalid_argument` the handler assigns
`effect_size = -1`. -/
def esVal (cell : String) : Except GwasError Dbl :=
  .ok ((stod cell).getD negOne)

/-- The mask-building loop shared by `positions_mask` and
`effect_size_mask`: for each row index `i` (starting at `start`), compute
the row's value from the cell at column `idx` and keep `i` iff the value is
strictly positive (the `pos` test); an exception escaping the value
computation aborts the whole loop. -/
def maskAux {α : Type} (val : String → Except GwasError α) (pos : α → Bool) (idx : Nat) :
    Nat → List (List String) → Except GwasError (List Nat)
  | _, [] => .ok []
  | start, r :: rs =>
    match val (r.getD idx "") with
    | .error e => .error e
    | .ok v =>
      match maskAux val pos idx (start + 1) rs with
      | .error e => .error e
      | .ok m => .ok (if pos v then start :: m else m)

/-- Model of `GWAS::positions_mask`: looks up the `CHR_POS` column
(`index_of.at` throws on absence) and keeps each row index whose `a_pos`
value satisfies `a_pos > 0` (an `unsigned long` comparison). -/
def positions_mask (g : GWAS) : Except GwasError (List Nat) :=
  match indexOf g.header "CHR_POS" with
  | none => .error .unknownColumn
  | some idx => maskAux posVal (fun v => decide (0 < v)) idx 0 g.data

/-- Model of `GWAS::effect_size_mask`: looks up the `OR or BETA` column and
keeps each row index whose `effect_size` value satisfies
`effect_size > 0` — by `Dbl.posB_iff`, `Dbl.posB` is exactly that
comparison on the denoted number. -/
def effect_size_mask (g : GWAS) : Except GwasError (List Nat) :=
  match indexOf g.header "OR or BETA" with
  | none => .error .unknownColumn
  | some idx => maskAux esVal Dbl.posB idx 0 g.data

/-! ## `intersect` (template over vectors, returning a `std::set`) -/

/-- Insertion into a `std::set<std::size_t>` modelled as a sorted
duplicate-free list. -/
def setInsert (x : Nat) : List Nat → List Nat
  | [] => [x]
  | y :: ys =>
    if x < y then x :: y :: ys
    else if x = y then y :: ys
    else y :: setInsert x ys

/-- Insertion into a `std::set<std::string>` modelled as a duplicate-free
list in first-insertion order. (The C++ set iterates in lexicographic byte
order; every claim under study depends only on the set's contents, never on
its string iteration order, so the model keeps the simpler insertion
order.) -/
def strSetAdd (v : String) (acc : List String) : List String :=
  if v ∈ acc then acc else acc ++ [v]

/-- Model of the free function `intersect(a, b)`: build a `std::set` from
`a`, then for each element of `b` in order insert it into the result set iff
the first set contains it. The returned `std::set` is represented by its
sorted duplicate-free element list (its iteration order). -/
def intersect (a b : List Nat) : List Nat :=
  b.foldl (fun s i => if a.contains i then setInsert i s else s) []

/-! ## Queries of the `GWAS` class -/

/-- Model of `GWAS::subsetter`: resolve the column name (throws
`UnknownColumn` via `index_of.at` on absence), then copy exactly the rows
whose cell at that column equals the value, in order, under the same
header. -/
def subsetter (g : GWAS) (colName colValue : String) : Except GwasError GWAS :=
  match indexOf g.header colName with
  | none => .error .unknownColumn
  | some idx => .ok ⟨g.header, g.data.filter (fun r => r.getD idx "" == colValue)⟩

/-- Model of `GWAS::uniqueDiseases`: the `std::set` of all values of the
`DISEASE/TRAIT` column, represented by its duplicate-free value list (see
`strSetAdd` for the order convention). -/
def uniqueDiseases (g : GWAS) : Except GwasError (List String) :=
  match indexOf g.header "DISEASE/TRAIT" with
  | none => .error .unknownColumn
  | some i => .ok (g.data.foldl (fun acc r => strSetAdd (r.getD i "") acc) [])

/-- The row filter of `GWAS::uniqueRSIDs`: the value must start with `rs`
(`rsid.starts_with("rs")`) and contain no space, tab or semicolon
(`rsid.find(c) == npos`), expressed over the character list. -/
def rsidOK (s : String) : Bool :=
  ['r', 's'].isPrefixOf s.data
    && !(s.data.contains ' ') && !(s.data.contains '\t') && !(s.data.contains ';')

/-- Model of `GWAS::uniqueRSIDs` (src/GWAS.hxx): looks up the `SNPS` column
and collects into a `std::set` every value passing `rsidOK`. -/
def uniqueRSIDs (g : GWAS) : Except GwasError (List String) :=
  match indexOf g.header "SNPS" with
  | none => .error .unknownColumn
  | some i =>
    .ok (g.data.foldl
      (fun acc r => if rsidOK (r.getD i "") then strSetAdd (r.getD i "") acc else acc) [])

/-- The index collection iterated by `positions_and_effect_size`:
`intersect(positions_mask(), effect_size_mask())`, with an exception from
either mask escaping. -/
def peIndices (g : GWAS) : Except GwasError (List Nat) :=
  match positions_mask g with
  | .error e => .error e
  | .ok pm =>
    match effect_size_mask g with
    | .error e => .error e
    | .ok em => .ok (intersect pm em)

/-- The emission loop of `positions_and_effect_size`: for each row index,
re-parse the two cells with bare `std::stoul` / `std::stod` — there is no
try/catch here, so a parse exception escapes to the caller. -/
def peLoop (g : GWAS) (idx esI : Nat) : List Nat → Except GwasError (List (Nat × Dbl))
  | [] => .ok []
  | i :: is =>
    match stoul ((g.data.getD i []).getD idx "") with
    | .invalidArg => .error .invalidArg
    | .outOfRange => .error .outOfRange
    | .ok p =>
      match stod ((g.data.getD i []).getD esI "") with
      | none => .error .invalidArg
      | some e =>
        match peLoop g idx esI is with
        | .error err => .error err
        | .ok rest => .ok ((p, e) :: rest)

/-- Model of `GWAS::positions_and_effect_size`: resolve the `CHR_POS` and
`OR or BETA` columns, intersect the two validity masks, and emit the
re-parsed (position, effect size) pair for each surviving row index in the
intersection's iteration order. -/
def positions_and_effect_size (g : GWAS) : Except GwasError (List (Nat × Dbl)) :=
  match indexOf g.header "CHR_POS", indexOf g.header "OR or BETA" with
  | none, _ => .error .unknownColumn
  | _, none => .error .unknownColumn
  | some idx, some esI =>
    match peIndices g with
    | .error e => .error e
    | .ok is => peLoop g idx esI is

/-! ## The `FlatFile` store and generic mask of src/gen_risk_lib/GWAS.hxx -/

/-- The table owned by a `FlatFile` (src/gen_risk_lib/GWAS.hxx): header and
data rows. (`index_of` is again derived from the header via `indexOf`.) -/
structure FlatFile where
  header : List String
  data : List (List String)
deriving DecidableEq, Repr

/-- Model of `FlatFile::num_rows`. -/
def FlatFile.num_rows (f : FlatFile) : Nat := f.data.length

/-- Model of `FlatFile::cell(row, col)` (unchecked access, totalised). -/
def FlatFile.cell (f : FlatFile) (row col : Nat) : String :=
  (f.data.getD row []).getD col ""

/-- Model of `GWAS::grab_mask(idx, f)` (src/gen_risk_lib/GWAS.hxx): the loop
`for i in [0, num_rows)` keeps `i` iff `!std::isnan(f(file.cell(i, idx)))`.
The parser argument `f` is abstracted by the Boolean test
`valid cell = !isnan (f cell)` (the template parameter `SomeFunction` only
ever reaches this test). -/
def grab_mask (f : FlatFile) (idx : Nat) (valid : String → Bool) : List Nat :=
  (List.range f.num_rows).filter (fun i => valid (f.cell i idx))

/-- Model of `FlatFile::trim(name_idx, col_value)`: the rows whose cell at
the given column index equals the value, in original order. -/
def trim (f : FlatFile) (nameIdx : Nat) (colValue : String) : List (List String) :=
  f.data.filter (fun r => r.getD nameIdx "" == colValue)

/-- Model of `FlatFile::subsetter2(name_idx, col_value)`:
`FlatFile(header, trim(name_idx, col_value))` — same header, trimmed rows,
never a failure. -/
def subsetter2 (f : FlatFile) (nameIdx : Nat) (colValue : String) : FlatFile :=
  ⟨f.header, trim f nameIdx colValue⟩

/-! ## Specification-side definition for the refinement claim about
sequential filtering -/

/-- Modelled from the spec: "filtering once by both predicates
simultaneously" (end-to-end scenario 4). This definition follows the spec's
words, not the source (the source has no conjunctive filter); it exists to
be compared with the composition of two `subsetter` calls. -/
def filterBothSpec (g : GWAS) (i1 : Nat) (v1 : String) (i2 : Nat) (v2 : String) : GWAS :=
  ⟨g.header, g.data.filter (fun r => (r.getD i1 "" == v1) && (r.getD i2 "" == v2))⟩

/-! ## Concrete tables used by the end-to-end scenarios -/

/-- The table of end-to-end scenario 2: `CHR_POS` values `100`, `abc`, `-5`,
`0`, effect sizes all `1.5`. -/
def scenario2gwas : GWAS :=
  ⟨["CHR_POS", "OR or BETA"],
   [["100", "1.5"], ["abc", "1.5"], ["-5", "1.5"], ["0", "1.5"]]⟩

/-- A one-row table whose position cell is unparseable (for the
error-propagation claim). -/
def badPosGwas : GWAS :=
  ⟨["CHR_POS", "OR or BETA"], [["xyz", "2.0"]]⟩

/-- A one-row table whose position cell overflows `unsigned long`
(`2^64`): `std::stoul` throws `std::out_of_range`, which the mask's catch
clause (for `std::invalid_argument` only) does not stop. -/
def overflowPosGwas : GWAS :=
  ⟨["CHR_POS", "OR or BETA"], [["18446744073709551616", "2.0"]]⟩

/-- The table of end-to-end scenario 3: four `SNPS` values. -/
def scenario3gwas : GWAS :=
  ⟨["SNPS"], [["rs123"], ["rs1; rs2"], ["nors1"], ["rs1 rs2"]]⟩

/-- A two-row table whose positions are out of order relative to row order:
row 0 has position 500, row 1 has position 100. -/
def unsortedPosGwas : GWAS :=
  ⟨["CHR_POS", "OR or BETA"], [["500", "1.5"], ["100", "2.0"]]⟩

/-- A three-row table for the sequential-filtering scenario (scenario 4). -/
def scenario4gwas : GWAS :=
  ⟨["DISEASE/TRAIT", "CHR_ID"],
   [["Type 2 diabetes", "6"], ["Type 2 diabetes", "7"], ["Other", "6"]]⟩

/-! ## Helper lemmas -/

theorem mem_setInsert (a x : Nat) : ∀ l : List Nat, x ∈ setInsert a l ↔ x = a ∨ x ∈ l := by
  intro l
  induction l with
  | nil => simp [setInsert]
  | cons y ys ih =>
    by_cases h1 : a < y
    · simp [setInsert, h1]
    · by_cases h2 : a = y
      · subst h2
        simp [setInsert, h1]
      · simp only [setInsert, if_neg h1, if_neg h2, List.mem_cons, ih]
        tauto

theorem pairwise_setInsert (a : Nat) :
    ∀ l : List Nat, l.Pairwise (· < ·) → (setInsert a l).Pairwise (· < ·) := by
  intro l
  induction l with
  | nil => simp [setInsert]
  | cons y ys ih =>
    intro hp
    rcases List.pairwise_cons.mp hp with ⟨hy, hys⟩
    by_cases h1 : a < y
    · simp only [setInsert, if_pos h1]
      refine List.pairwise_cons.mpr ⟨?_, hp⟩
      intro b hb
      rcases List.mem_cons.mp hb with rfl | hb'
      · exact h1
      · exact h1.trans (hy b hb')
    · by_cases h2 : a = y
      · simpa [setInsert, h1, h2] using hp
      · simp only [setInsert, if_neg h1, if_neg h2]
        refine List.pairwise_cons.mpr ⟨?_, ih hys⟩
        intro b hb
        rcases (mem_setInsert a b ys).mp hb with rfl | hb'
        · omega
        · exact hy b hb'

theorem intersect_foldl_mem (a b : List Nat) :
    ∀ (s : List Nat) (x : Nat),
      x ∈ b.foldl (fun s i => if a.contains i then setInsert i s else s) s ↔
        x ∈ s ∨ (x ∈ b ∧ x ∈ a) := by
  induction b with
  | nil => simp
  | cons i is ih =>
    intro s x
    simp only [List.foldl_cons]
    by_cases hc : a.contains i
    · have hia : i ∈ a := by simpa using hc
      rw [if_pos hc, ih]
      simp only [mem_setInsert, List.mem_cons]
      constructor
      · rintro ((rfl | hx) | ⟨hxb, hxa⟩)
        · exact Or.inr ⟨Or.inl rfl, hia⟩
        · exact Or.inl hx
        · exact Or.inr ⟨Or.inr hxb, hxa⟩
      · rintro (hx | ⟨(rfl | hxb), hxa⟩)
        · exact Or.inl (Or.inr hx)
        · exact Or.inl (Or.inl rfl)
        · exact Or.inr ⟨hxb, hxa⟩
    · rw [if_neg hc, ih]
      have hia : i ∉ a := by simpa using hc
      simp only [List.mem_cons]
      constructor
      · rintro (hx | ⟨hxb, hxa⟩)
        · exact Or.inl hx
        · exact Or.inr ⟨Or.inr hxb, hxa⟩
      · rintro (hx | ⟨(rfl | hxb), hxa⟩)
        · exact Or.inl hx
        · exact absurd hxa hia
        · exact Or.inr ⟨hxb, hxa⟩

theorem intersect_foldl_pairwise (a b : List Nat) :
    ∀ s : List Nat, s.Pairwise (· < ·) →
      (b.foldl (fun s i => if a.contains i then setInsert i s else s) s).Pairwise (· < ·) := by
  induction b with
  | nil => intro s hs; simpa using hs
  | cons i is ih =>
    intro s hs
    simp only [List.foldl_cons]
    by_cases hc : a.contains i
    · rw [if_pos hc]
      exact ih _ (pairwise_setInsert i s hs)
    · rw [if_neg hc]
      exact ih _ hs

theorem intersect_mem (a b : List Nat) (x : Nat) :
    x ∈ intersect a b ↔ x ∈ a ∧ x ∈ b := by
  unfold intersect
  rw [intersect_foldl_mem]
  simp [and_comm]

theorem intersect_pairwise (a b : List Nat) : (intersect a b).Pairwise (· < ·) :=
  intersect_foldl_pairwise a b [] (List.Pairwise.nil)

theorem sortedExt : ∀ {l1 l2 : List Nat}, l1.Pairwise (· < ·) → l2.Pairwise (· < ·) →
    (∀ x, x ∈ l1 ↔ x ∈ l2) → l1 = l2 := by
  intro l1
  induction l1 with
  | nil =>
    intro l2 _ _ hm
    cases l2 with
    | nil => rfl
    | cons b t2 => exact absurd ((hm b).mpr (List.mem_cons_self b t2)) (List.not_mem_nil b)
  | cons a t1 ih =>
    intro l2 h1 h2 hm
    cases l2 with
    | nil => exact absurd ((hm a).mp (List.mem_cons_self a t1)) (List.not_mem_nil a)
    | cons b t2 =>
      rcases List.pairwise_cons.mp h1 with ⟨ha, ht1⟩
      rcases List.pairwise_cons.mp h2 with ⟨hb, ht2⟩
      have hab : a = b := by
        rcases List.mem_cons.mp ((hm a).mp (List.mem_cons_self a t1)) with h | h
        · exact h
        · rcases List.mem_cons.mp ((hm b).mpr (List.mem_cons_self b t2)) with h' | h'
          · omega
          · have := ha b h'
            have := hb a h
            omega
      subst hab
      have : t1 = t2 := by
        refine ih ht1 ht2 ?_
        intro x
        constructor
        · intro hx
          rcases List.mem_cons.mp ((hm x).mp (List.mem_cons_of_mem a hx)) with rfl | h
          · exact absurd (ha x hx) (lt_irrefl x)
          · exact h
        · intro hx
          rcases List.mem_cons.mp ((hm x).mpr (List.mem_cons_of_mem a hx)) with rfl | h
          · exact absurd (hb x hx) (lt_irrefl x)
          · exact h
      rw [this]

theorem maskAux_ok {α : Type} (val : String → Except GwasError α) (pos : α → Bool) (idx : Nat) :
    ∀ (rows : List (List String)) (start : Nat) (m : List Nat),
      maskAux val pos idx start rows = .ok m →
      m.Pairwise (· < ·) ∧ ∀ j ∈ m, start ≤ j ∧ j < start + rows.length := by
  intro rows
  induction rows with
  | nil =>
    intro start m h
    simp only [maskAux] at h
    cases h
    simp
  | cons r rs ih =>
    intro start m h
    simp only [maskAux] at h
    cases hv : val (r.getD idx "") with
    | error e => rw [hv] at h; cases h
    | ok v =>
      rw [hv] at h
      cases hrec : maskAux val pos idx (start + 1) rs with
      | error e => rw [hrec] at h; cases h
      | ok m' =>
        rw [hrec] at h
        dsimp only at h
        rcases ih (start + 1) m' hrec with ⟨hp, hbnd⟩
        by_cases hkeep : pos v = true
        · rw [if_pos hkeep] at h
          cases h
          constructor
          · refine List.pairwise_cons.mpr ⟨?_, hp⟩
            intro j hj
            have := (hbnd j hj).1
            omega
          · intro j hj
            rcases List.mem_cons.mp hj with rfl | hj'
            · simp
            · have := hbnd j hj'
              simp only [List.length_cons]
              omega
        · rw [if_neg hkeep] at h
          cases h
          refine ⟨hp, ?_⟩
          intro j hj
          have := hbnd j hj
          simp only [List.length_cons]
          omega

theorem posB_iff (d : Dbl) : d.posB = true ↔ 0 < d.toRat := by
  rcases d with ⟨neg, num, scale, e⟩
  have h1 : (0 : ℚ) < 10 ^ scale := pow_pos (by norm_num) _
  have h2 : (0 : ℚ) < (10 : ℚ) ^ e := zpow_pos (by norm_num) _
  cases neg with
  | false =>
    simp only [Dbl.posB, Dbl.toRat, Bool.not_false, Bool.true_and, bne_iff_ne, ne_eq,
      if_neg Bool.false_ne_true, one_mul]
    constructor
    · intro h
      have hn : (0 : ℚ) < num := by
        exact_mod_cast Nat.pos_of_ne_zero (by simpa using h)
      exact mul_pos (div_pos hn h1) h2
    · intro h
      intro hnum
      rw [hnum] at h
      simp at h
  | true =>
    simp only [Dbl.posB, Bool.not_true, Bool.false_and]
    constructor
    · intro h
      exact absurd h (by simp)
    · intro h
      exfalso
      have hx : Dbl.toRat ⟨true, num, scale, e⟩ = -((num : ℚ) / 10 ^ scale * 10 ^ e) := by
        simp [Dbl.toRat]
        ring
      rw [hx] at h
      have hn : (0 : ℚ) ≤ (num : ℚ) / 10 ^ scale * 10 ^ e :=
        mul_nonneg (div_nonneg (by positivity) (le_of_lt h1)) (le_of_lt h2)
      linarith

theorem mem_strSetAdd (v x : String) (acc : List String) :
    x ∈ strSetAdd v acc ↔ x = v ∨ x ∈ acc := by
  unfold strSetAdd
  by_cases h : v ∈ acc
  · rw [if_pos h]
    constructor
    · exact Or.inr
    · rintro (rfl | hx)
      · exact h
      · exact hx
  · rw [if_neg h]
    simp only [List.mem_append, List.mem_singleton]
    tauto

theorem mem_foldl_strSetAddIf (p : String → Bool) (get : List String → String) :
    ∀ (l : List (List String)) (acc : List String) (v : String),
      v ∈ l.foldl (fun acc r => if p (get r) then strSetAdd (get r) acc else acc) acc ↔
        v ∈ acc ∨ ∃ r ∈ l, get r = v ∧ p (get r) = true := by
  intro l
  induction l with
  | nil => simp
  | cons r rs ih =>
    intro acc v
    simp only [List.foldl_cons]
    by_cases hp : p (get r) = true
    · rw [if_pos hp, ih]
      simp only [mem_strSetAdd, List.mem_cons]
      constructor
      · rintro ((rfl | hv) | ⟨r', hr', hgv, hpr⟩)
        · exact Or.inr ⟨r, Or.inl rfl, rfl, hp⟩
        · exact Or.inl hv
        · exact Or.inr ⟨r', Or.inr hr', hgv, hpr⟩
      · rintro (hv | ⟨r', (rfl | hr'), hgv, hpr⟩)
        · exact Or.inl (Or.inr hv)
        · exact Or.inl (Or.inl hgv.symm)
        · exact Or.inr ⟨r', hr', hgv, hpr⟩
    · rw [if_neg hp, ih]
      simp only [List.mem_cons]
      constructor
      · rintro (hv | ⟨r', hr', hgv, hpr⟩)
        · exact Or.inl hv
        · exact Or.inr ⟨r', Or.inr hr', hgv, hpr⟩
      · rintro (hv | ⟨r', (rfl | hr'), hgv, hpr⟩)
        · exact Or.inl hv
        · exact absurd hpr hp
        · exact Or.inr ⟨r', hr', hgv, hpr⟩

theorem rsidOK_iff (v : String) :
    rsidOK v = true ↔
      (['r', 's'].isPrefixOf v.data = true ∧ ' ' ∉ v.data ∧ '\t' ∉ v.data ∧ ';' ∉ v.data) := by
  simp [rsidOK, Bool.and_eq_true, Bool.not_eq_true', and_assoc]

theorem positions_mask_ok (g : GWAS) (m : List Nat) (h : positions_mask g = .ok m) :
    m.Pairwise (· < ·) ∧ ∀ i ∈ m, i < g.data.length := by
  unfold positions_mask at h
  cases hidx : indexOf g.header "CHR_POS" with
  | none => rw [hidx] at h; cases h
  | some idx =>
    rw [hidx] at h
    rcases maskAux_ok posVal (fun v => decide (0 < v)) idx g.data 0 m h with ⟨hp, hb⟩
    exact ⟨hp, fun i hi => by have := (hb i hi).2; omega⟩

theorem effect_size_mask_ok (g : GWAS) (m : List Nat) (h : effect_size_mask g = .ok m) :
    m.Pairwise (· < ·) ∧ ∀ i ∈ m, i < g.data.length := by
  unfold effect_size_mask at h
  cases hidx : indexOf g.header "OR or BETA" with
  | none => rw [hidx] at h; cases h
  | some idx =>
    rw [hidx] at h
    rcases maskAux_ok esVal Dbl.posB idx g.data 0 m h with ⟨hp, hb⟩
    exact ⟨hp, fun i hi => by have := (hb i hi).2; omega⟩

theorem peIndices_ok (g : GWAS) (is : List Nat) (h : peIndices g = .ok is) :
    is.Pairwise (· < ·) ∧ ∀ i ∈ is, i < g.data.length := by
  unfold peIndices at h
  cases hp : positions_mask g with
  | error e => rw [hp] at h; cases h
  | ok pm =>
    rw [hp] at h
    cases he : effect_size_mask g with
    | error e => rw [he] at h; cases h
    | ok em =>
      rw [he] at h
      dsimp only at h
      cases h
      refine ⟨intersect_pairwise pm em, ?_⟩
      intro i hi
      have hmem := (intersect_mem pm em i).mp hi
      exact ((positions_mask_ok g pm hp).2) i hmem.1

/-! ## Claim theorems -/

/-- C1: the spec's end-to-end scenario 2 claims that on `CHR_POS` cells
`100 / abc / -5 / 0` (effect sizes all `1.5`) exactly one pair `(100, 1.5)`
is returned, a row entering the position mask iff its cell parses and is
strictly positive. The code disagrees with itself here: the mask admits row
1 (`abc`, because the catch handler's `a_pos = -1` wraps to
`ULONG_MAX > 0`) and row 2 (`-5`, because `stoul` wraps it to `2^64 - 5`),
and the unguarded re-parse of `abc` inside `positions_and_effect_size` then
throws `std::invalid_argument` instead of returning any pairs — contrary to
the function's own documentation that it "only returns cases where both the
effect size and position are valid numbers". -/
theorem c1_scenario2_crashes :
    positions_mask scenario2gwas = .ok [0, 1, 2] ∧
    positions_and_effect_size scenario2gwas = .error .invalidArg := by
  constructor <;> decide

/-- C2: the spec claims per-cell parse failures never propagate out of
`positionsAndEffectSizes` or the mask computation. On the code: an
unparseable `CHR_POS` cell (`xyz`) passes the mask (sentinel wraparound) and
the bare `std::stoul` in the emission loop throws `std::invalid_argument` to
the caller; and an out-of-range cell (`2^64`) throws `std::out_of_range`
from inside `positions_mask` itself, whose catch clause only stops
`std::invalid_argument`. -/
theorem c2_parse_error_escapes :
    positions_and_effect_size badPosGwas = .error .invalidArg ∧
    positions_mask overflowPosGwas = .error .outOfRange := by
  constructor <;> decide

/-- C9: `load` on a source yielding zero lines fails with the
`MalformedInput` condition (`get_lines`'s `assert(!lines.empty())`) and, the
result being an error, returns no partially constructed table. -/
theorem c9_load_empty_fails : loadGWAS [] = .error .malformedInput := rfl

/-- C5 counterexample: constructing the Domain View over a table whose
header (`["A"]`) lacks all five well-known columns succeeds — it does not
fail with `UnknownColumn` as the claim states. -/
theorem c5_counterexample :
    constructGWAS ["A"] [] = .ok ⟨["A"], []⟩ ∧
    indexOf ["A"] "DISEASE/TRAIT" = none ∧ indexOf ["A"] "CHR_POS" = none ∧
    indexOf ["A"] "OR or BETA" = none ∧ indexOf ["A"] "CHR_ID" = none ∧
    indexOf ["A"] "SNPS" = none := by
  exact ⟨rfl, by decide, by decide, by decide, by decide, by decide⟩

/-- C5 (amended): construction of the Domain View only builds the
name-to-index map and always succeeds, resolving none of the five well-known
columns; each operation resolves the column it needs at call time and it is
that operation which fails with `UnknownColumn` when the column is absent
from the header. -/
theorem c5_construction_lazy :
    (∀ (h : List String) (d : List (List String)), constructGWAS h d = .ok ⟨h, d⟩) ∧
    (∀ g : GWAS, indexOf g.header "SNPS" = none → uniqueRSIDs g = .error .unknownColumn) ∧
    (∀ (g : GWAS) (c v : String), indexOf g.header c = none →
      subsetter g c v = .error .unknownColumn) ∧
    (∀ g : GWAS, indexOf g.header "CHR_POS" = none →
      positions_mask g = .error .unknownColumn) ∧
    (∀ g : GWAS, indexOf g.header "OR or BETA" = none →
      effect_size_mask g = .error .unknownColumn) ∧
    (∀ g : GWAS, indexOf g.header "DISEASE/TRAIT" = none →
      uniqueDiseases g = .error .unknownColumn) ∧
    (∀ g : GWAS, indexOf g.header "CHR_POS" = none →
      positions_and_effect_size g = .error .unknownColumn) := by
  refine ⟨fun h d => rfl, ?_, ?_, ?_, ?_, ?_, ?_⟩
  · intro g h
    simp [uniqueRSIDs, h]
  · intro g c v h
    simp [subsetter, h]
  · intro g h
    simp [positions_mask, h]
  · intro g h
    simp [effect_size_mask, h]
  · intro g h
    simp [uniqueDiseases, h]
  · intro g h
    simp [positions_and_effect_size, h]

/-- Witness for C5's amended theorem at the header `["A"]`. -/
theorem c5_witness :
    uniqueRSIDs ⟨["A"], []⟩ = .error .unknownColumn ∧
    subsetter ⟨["A"], []⟩ "DISEASE/TRAIT" "x" = .error .unknownColumn ∧
    positions_mask ⟨["A"], []⟩ = .error .unknownColumn :=
  ⟨c5_construction_lazy.2.1 ⟨["A"], []⟩ (by decide),
   c5_construction_lazy.2.2.1 ⟨["A"], []⟩ "DISEASE/TRAIT" "x" (by decide),
   c5_construction_lazy.2.2.2.1 ⟨["A"], []⟩ (by decide)⟩

/-- C6: `intersect` is commutative on any two index vectors (both sides are
the same `std::set`, iterated in sorted order), and is the identity on any
index collection that is already a set — i.e. sorted and duplicate-free, as
every validity mask is. -/
theorem c6_intersect_comm_idem :
    (∀ a b : List Nat, intersect a b = intersect b a) ∧
    (∀ a : List Nat, a.Pairwise (· < ·) → intersect a a = a) := by
  constructor
  · intro a b
    refine sortedExt (intersect_pairwise a b) (intersect_pairwise b a) ?_
    intro x
    rw [intersect_mem, intersect_mem]
    tauto
  · intro a ha
    refine sortedExt (intersect_pairwise a a) ha ?_
    intro x
    rw [intersect_mem]
    tauto

/-- Witness for C6 at concrete index collections. -/
theorem c6_witness :
    intersect [3, 1] [2, 3] = intersect [2, 3] [3, 1] ∧
    ([4, 7] : List Nat).Pairwise (· < ·) ∧ intersect [4, 7] [4, 7] = [4, 7] :=
  ⟨c6_intersect_comm_idem.1 [3, 1] [2, 3], by decide,
   c6_intersect_comm_idem.2 [4, 7] (by decide)⟩

/-- C3: `uniqueRSIDs` returns exactly the set of `SNPS`-column values that
start with `rs` and contain no space, tab or semicolon; on the scenario-3
values `rs123 / rs1; rs2 / nors1 / rs1 rs2` it returns exactly the
singleton `rs123`. -/
theorem c3_uniqueRSIDs_spec :
    (∀ (g : GWAS) (i : Nat) (s : List String), indexOf g.header "SNPS" = some i →
      uniqueRSIDs g = .ok s →
      ∀ v, v ∈ s ↔ (∃ r ∈ g.data, r.getD i "" = v) ∧
        (['r', 's'].isPrefixOf v.data = true ∧ ' ' ∉ v.data ∧ '\t' ∉ v.data ∧ ';' ∉ v.data)) ∧
    uniqueRSIDs scenario3gwas = .ok ["rs123"] := by
  constructor
  · intro g i s hidx hok v
    simp only [uniqueRSIDs, hidx] at hok
    cases hok
    rw [mem_foldl_strSetAddIf rsidOK (fun r => r.getD i "") g.data [] v]
    simp only [List.not_mem_nil, false_or]
    constructor
    · rintro ⟨r, hr, hgv, hp⟩
      rw [hgv] at hp
      exact ⟨⟨r, hr, hgv⟩, (rsidOK_iff v).mp hp⟩
    · rintro ⟨⟨r, hr, hgv⟩, hc⟩
      exact ⟨r, hr, hgv, by rw [hgv]; exact (rsidOK_iff v).mpr hc⟩
  · decide

/-- Witness for C3 at the scenario-3 table. -/
theorem c3_witness :
    ("rs123" ∈ (["rs123"] : List String) ↔
      (∃ r ∈ scenario3gwas.data, r.getD 0 "" = "rs123") ∧
      (['r', 's'].isPrefixOf "rs123".data = true ∧ ' ' ∉ "rs123".data ∧
        '\t' ∉ "rs123".data ∧ ';' ∉ "rs123".data)) ∧
    uniqueRSIDs scenario3gwas = .ok ["rs123"] :=
  ⟨c3_uniqueRSIDs_spec.1 scenario3gwas 0 ["rs123"] (by decide) (by decide) "rs123",
   c3_uniqueRSIDs_spec.2⟩

/-- C4: row filtering keeps the same header, keeps exactly the rows whose
cell at the column equals the value (both directions), preserves the
original row order (the result is a sublist of the source rows), never
exceeds the source's row count and never fails; the name-resolving variant
`subsetter` likewise returns the filtered table whenever the column name
resolves. An empty result is simply the valid zero-row table. -/
theorem c4_filterRows_spec :
    (∀ (f : FlatFile) (idx : Nat) (v : String),
      (subsetter2 f idx v).header = f.header ∧
      (subsetter2 f idx v).data.Sublist f.data ∧
      (subsetter2 f idx v).num_rows ≤ f.num_rows ∧
      (∀ r ∈ (subsetter2 f idx v).data, r.getD idx "" = v) ∧
      (∀ r ∈ f.data, r.getD idx "" = v → r ∈ (subsetter2 f idx v).data)) ∧
    (∀ (g : GWAS) (c v : String) (i : Nat), indexOf g.header c = some i →
      subsetter g c v = .ok ⟨g.header, g.data.filter (fun r => r.getD i "" == v)⟩) := by
  constructor
  · intro f idx v
    refine ⟨rfl, List.filter_sublist f.data, List.length_filter_le _ f.data, ?_, ?_⟩
    · intro r hr
      have := List.mem_filter.mp hr
      simpa using this.2
    · intro r hr hv
      exact List.mem_filter.mpr ⟨hr, by simpa using hv⟩
  · intro g c v i h
    simp [subsetter, h]

/-- Witness for C4 at a concrete three-row table. -/
theorem c4_witness :
    (subsetter2 ⟨["A"], [["x"], ["y"], ["x"]]⟩ 0 "x").header = ["A"] ∧
    (["x"] : List String).getD 0 "" = "x" ∧
    subsetter ⟨["A"], [["x"], ["y"]]⟩ "A" "x" =
      .ok ⟨["A"], List.filter (fun r => r.getD 0 "" == "x") [["x"], ["y"]]⟩ :=
  ⟨(c4_filterRows_spec.1 ⟨["A"], [["x"], ["y"], ["x"]]⟩ 0 "x").1,
   (c4_filterRows_spec.1 ⟨["A"], [["x"], ["y"], ["x"]]⟩ 0 "x").2.2.2.1 ["x"] (by decide),
   c4_filterRows_spec.2 ⟨["A"], [["x"], ["y"]]⟩ "A" "x" 0 (by decide)⟩

/-- C7: filtering by `DISEASE/TRAIT` and then by `CHR_ID` is, row for row,
the same table as filtering once by the conjunction of both predicates
(`filterBothSpec`, written from the spec's words). -/
theorem c7_sequential_eq_conjunctive :
    ∀ (g : GWAS) (v1 v2 : String) (i1 i2 : Nat),
      indexOf g.header "DISEASE/TRAIT" = some i1 →
      indexOf g.header "CHR_ID" = some i2 →
      Except.bind (subsetter g "DISEASE/TRAIT" v1) (fun g1 => subsetter g1 "CHR_ID" v2) =
        .ok (filterBothSpec g i1 v1 i2 v2) := by
  intro g v1 v2 i1 i2 h1 h2
  simp only [subsetter, h1, h2, Except.bind, filterBothSpec, List.filter_filter]
  have hcomm : (fun r : List String => (r.getD i2 "" == v2) && (r.getD i1 "" == v1)) =
      (fun r : List String => (r.getD i1 "" == v1) && (r.getD i2 "" == v2)) := by
    funext r
    exact Bool.and_comm _ _
  rw [hcomm]

/-- Witness for C7 at the scenario-4 table. -/
theorem c7_witness :
    Except.bind (subsetter scenario4gwas "DISEASE/TRAIT" "Type 2 diabetes")
      (fun g1 => subsetter g1 "CHR_ID" "6") =
      .ok (filterBothSpec scenario4gwas 0 "Type 2 diabetes" 1 "6") :=
  c7_sequential_eq_conjunctive scenario4gwas "Type 2 diabetes" "6" 0 1 (by decide) (by decide)

/-- C8: the pair sequence follows the iteration order of the set-based
intersection of the two masks — ascending original row index — and not
ascending genomic position: on a table whose first row holds position 500
and second row position 100 the output is `[(500, 1.5), (100, 2.0)]`, whose
first components are not in ascending order. -/
theorem c8_row_index_order :
    (∀ (g : GWAS) (is : List Nat), peIndices g = .ok is → is.Pairwise (· < ·)) ∧
    positions_and_effect_size unsortedPosGwas =
      .ok [(500, ⟨false, 15, 1, 0⟩), (100, ⟨false, 20, 1, 0⟩)] ∧
    Dbl.toRat ⟨false, 15, 1, 0⟩ = 3 / 2 ∧ Dbl.toRat ⟨false, 20, 1, 0⟩ = 2 ∧
    (∀ l, positions_and_effect_size unsortedPosGwas = .ok l →
      ¬ (l.map Prod.fst).Pairwise (· ≤ ·)) := by
  refine ⟨?_, by decide, by norm_num [Dbl.toRat], by norm_num [Dbl.toRat], ?_⟩
  · intro g is h
    exact (peIndices_ok g is h).1
  · intro l hl
    have h2 : positions_and_effect_size unsortedPosGwas =
        .ok [(500, ⟨false, 15, 1, 0⟩), (100, ⟨false, 20, 1, 0⟩)] := by decide
    rw [h2] at hl
    cases hl
    decide

/-- Witness for C8 at the out-of-order table. -/
theorem c8_witness :
    ([0, 1] : List Nat).Pairwise (· < ·) ∧
    ¬ ((([(500, ⟨false, 15, 1, 0⟩), (100, ⟨false, 20, 1, 0⟩)] : List (Nat × Dbl)).map
      Prod.fst).Pairwise (· ≤ ·)) :=
  ⟨c8_row_index_order.1 unsortedPosGwas [0, 1] (by decide),
   c8_row_index_order.2.2.2.2 _ c8_row_index_order.2.1⟩

/-- C10: every validity mask (`positions_mask`, `effect_size_mask`,
`grab_mask`) is a strictly increasing list of row indices below the row
count, and so is the intersection the pair-extraction loop iterates —
hence that loop reads distinct, in-bounds rows. -/
theorem c10_mask_invariants :
    (∀ (g : GWAS) (m : List Nat), positions_mask g = .ok m →
      m.Pairwise (· < ·) ∧ ∀ i ∈ m, i < g.data.length) ∧
    (∀ (g : GWAS) (m : List Nat), effect_size_mask g = .ok m →
      m.Pairwise (· < ·) ∧ ∀ i ∈ m, i < g.data.length) ∧
    (∀ (f : FlatFile) (idx : Nat) (valid : String → Bool),
      (grab_mask f idx valid).Pairwise (· < ·) ∧
      ∀ i ∈ grab_mask f idx valid, i < f.num_rows) ∧
    (∀ (g : GWAS) (is : List Nat), peIndices g = .ok is →
      is.Pairwise (· < ·) ∧ ∀ i ∈ is, i < g.data.length) := by
  refine ⟨positions_mask_ok, effect_size_mask_ok, ?_, peIndices_ok⟩
  intro f idx valid
  constructor
  · exact (List.pairwise_lt_range f.num_rows).filter _
  · intro i hi
    have h1 : i < f.num_rows ∧ valid (f.cell i idx) = true := by simpa [grab_mask] using hi
    exact h1.1

/-- Witness for C10 at a concrete one-row table. -/
theorem c10_witness :
    ([0] : List Nat).Pairwise (· < ·) ∧
    (0 : Nat) < (⟨["CHR_POS", "OR or BETA"], [["7", "1.5"]]⟩ : GWAS).data.length :=
  ⟨(c10_mask_invariants.1 ⟨["CHR_POS", "OR or BETA"], [["7", "1.5"]]⟩ [0] (by decide)).1,
   (c10_mask_invariants.1 ⟨["CHR_POS", "OR or BETA"], [["7", "1.5"]]⟩ [0] (by decide)).2 0
     (by decide)⟩

end GenRisk
